import Mathlib

/-!
Verification of the DecisionGame score-ranking backend
(backend/http-functions.js).

The repository holds two generations of the HTTP handlers:

* `post_decisionGame_saveScore` / `get_decisionGame_leaderboard`
  (strict validation, initials normalization, unconditional insert,
  inline sort comparators with a persisted-mistakes fallback), and
* `post_decisionGame` / `get_decisionGame`
  (upsert through the helper `isScoreBetter`, lax validation,
  GET defaults an unrecognized mode to "short").

Both generations are embedded below.  JavaScript numbers are modelled
as `Int` (all ranking logic is pure comparison), the document store as
a list of stored records, and each handler as a pure function from the
parsed request plus the store to a response, the new store and the
list of repository operations it performed.
-/

namespace DecisionGame

/-- A score record as built inside `post_decisionGame` (`scoreDoc` and
`currentScore`): the six fields the comparator and the upsert use. -/
structure ScoreRecord where
  initials : String
  mode : String
  correct : Int
  totalQuestions : Int
  totalTimeMs : Int
  avgTimeMs : Int
  deriving DecidableEq, Repr

/-- Embedding of the helper `isScoreBetter(a, b)`: true iff `a` ranks
strictly ahead of `b`.  The branch is selected from `a.mode` alone,
exactly as in the source (`const mode = a.mode`). -/
def isScoreBetter (a b : ScoreRecord) : Bool :=
  if a.mode = "infinite" then
    if a.correct ≠ b.correct then a.correct > b.correct
    else if a.avgTimeMs ≠ b.avgTimeMs then a.avgTimeMs < b.avgTimeMs
    else a.totalTimeMs < b.totalTimeMs
  else
    let aMistakes := a.totalQuestions - a.correct
    let bMistakes := b.totalQuestions - b.correct
    if aMistakes ≠ bMistakes then aMistakes < bMistakes
    else if a.totalTimeMs ≠ b.totalTimeMs then a.totalTimeMs < b.totalTimeMs
    else a.avgTimeMs < b.avgTimeMs

/-- Strict lexicographic order on integer triples, written from the
specification: the first differing component decides. -/
def lexLt3 (x y : Int × Int × Int) : Prop :=
  x.1 < y.1 ∨ (x.1 = y.1 ∧ (x.2.1 < y.2.1 ∨ (x.2.1 = y.2.1 ∧ x.2.2 < y.2.2)))

instance (x y : Int × Int × Int) : Decidable (lexLt3 x y) := by
  unfold lexLt3; infer_instance

/-- Ranking keys of the infinite mode, from the specification:
correct descending (encoded by negation), then average reaction time
ascending, then total time ascending. -/
def infiniteKeys (r : ScoreRecord) : Int × Int × Int :=
  (-r.correct, r.avgTimeMs, r.totalTimeMs)

/-- Ranking keys of the short and long modes, from the specification:
mistakes (totalQuestions minus correct) ascending, then total time
ascending, then average reaction time ascending. -/
def shortLongKeys (r : ScoreRecord) : Int × Int × Int :=
  (r.totalQuestions - r.correct, r.totalTimeMs, r.avgTimeMs)

/-- The key tuple a record is ranked by under a given mode string:
the comparator treats every mode other than "infinite" by the
short/long rule. -/
def keysByMode (m : String) (r : ScoreRecord) : Int × Int × Int :=
  if m = "infinite" then infiniteKeys r else shortLongKeys r

theorem lexLt3_irrefl (x : Int × Int × Int) : ¬ lexLt3 x x := by
  obtain ⟨a, b, c⟩ := x; simp [lexLt3]

theorem lexLt3_asymm (x y : Int × Int × Int) :
    lexLt3 x y → ¬ lexLt3 y x := by
  obtain ⟨a, b, c⟩ := x; obtain ⟨d, e, f⟩ := y; simp [lexLt3]; omega

theorem lexLt3_trans (x y z : Int × Int × Int) :
    lexLt3 x y → lexLt3 y z → lexLt3 x z := by
  obtain ⟨a, b, c⟩ := x; obtain ⟨d, e, f⟩ := y; obtain ⟨g, h, i⟩ := z
  simp [lexLt3]; omega

theorem lexLt3_trichotomy (x y : Int × Int × Int) :
    lexLt3 x y ∨ x = y ∨ lexLt3 y x := by
  obtain ⟨a, b, c⟩ := x; obtain ⟨d, e, f⟩ := y
  simp [lexLt3, Prod.ext_iff]; omega

/-- The comparator is exactly the strict lexicographic order on the
key tuples selected by the mode of its first argument. -/
theorem isScoreBetter_iff (a b : ScoreRecord) :
    isScoreBetter a b = true ↔
      lexLt3 (keysByMode a.mode a) (keysByMode a.mode b) := by
  by_cases hm : a.mode = "infinite" <;>
    simp only [isScoreBetter, keysByMode, infiniteKeys, shortLongKeys,
      lexLt3, hm, if_true, if_false] <;>
    split_ifs <;> simp_all

/-- A document of the DecisionGameScores collection.  `sysId` models the
store-assigned identity used by update-by-identity; `mistakes` and
`createdAt` are present only on documents written by
`post_decisionGame_saveScore`, which is why they are optional. -/
structure StoredRecord where
  sysId : Nat
  initials : String
  mode : String
  correct : Int
  totalQuestions : Int
  totalTimeMs : Int
  avgTimeMs : Int
  mistakes : Option Int
  createdAt : Option Nat
  deriving DecidableEq, Repr

/-- The `currentScore` object `post_decisionGame` builds from a fetched
document before comparing: the six score fields, nothing else. -/
def toScore (r : StoredRecord) : ScoreRecord :=
  ⟨r.initials, r.mode, r.correct, r.totalQuestions, r.totalTimeMs, r.avgTimeMs⟩

/-- One repository round trip, recorded in the order performed. -/
inductive RepoOp where
  | query (initials mode : String)
  | queryMode (mode : String)
  | insert (doc : StoredRecord)
  | update (doc : StoredRecord)
  deriving DecidableEq, Repr

/-- Repository operations that write. -/
def isWriteOp : RepoOp → Bool
  | .insert _ => true
  | .update _ => true
  | _ => false

/-- The equality-filter query of `post_decisionGame`:
`wixData.query(COL).eq("initials", initials).eq("mode", mode).find()`. -/
def wixQuery (db : List StoredRecord) (i m : String) : List StoredRecord :=
  db.filter fun r => decide (r.initials = i ∧ r.mode = m)

/-- The update-by-identity call `wixData.update(COL, current)`. -/
def wixUpdate (db : List StoredRecord) (doc : StoredRecord) : List StoredRecord :=
  db.map fun r => if r.sysId = doc.sysId then doc else r

/-- The mode-filtered query of both leaderboard handlers:
`wixData.query(COL).eq("mode", mode).limit(1000).find()`. -/
def wixQueryMode (db : List StoredRecord) (m : String) : List StoredRecord :=
  (db.filter fun r => decide (r.mode = m)).take 1000

/-- ASCII lowercasing of a string, character by character, modelling
the JavaScript toLowerCase call on the mode strings in use. -/
def jsToLower (s : String) : String :=
  String.mk (s.data.map Char.toLower)

/-- ASCII uppercasing of a string, character by character, modelling
the JavaScript toUpperCase call in the initials normalization. -/
def jsToUpper (s : String) : String :=
  String.mk (s.data.map Char.toUpper)

/-- The slice(0, 3) truncation of the initials normalization. -/
def jsSlice3 (s : String) : String :=
  String.mk (s.data.take 3)

/-- One field of the parsed JSON body: a number, some other JSON value
(such as a string), or absent. -/
inductive JsField where
  | num (n : Int)
  | str (s : String)
  | absent
  deriving DecidableEq, Repr

/-- The typeof-number test the handlers run on each score field. -/
def JsField.isNumber : JsField → Bool
  | .num _ => true
  | _ => false

/-- The destructured request body
`{ initials, mode, correct, totalQuestions, totalTimeMs, avgTimeMs }`.
`initials` and `mode` are modelled as optional strings (`none` is an
absent field); the four score fields as arbitrary JSON fields. -/
structure ReqBody where
  initials : Option String
  mode : Option String
  correct : JsField
  totalQuestions : JsField
  totalTimeMs : JsField
  avgTimeMs : JsField
  deriving DecidableEq, Repr

/-- A fully populated request body. -/
def mkBody (i m : String) (c q t g : Int) : ReqBody :=
  ⟨some i, some m, .num c, .num q, .num t, .num g⟩

/-- Response of the POST handlers (`badRequest` vs the `ok` success
acknowledgment). -/
inductive PostResp where
  | badRequest
  | success
  deriving DecidableEq, Repr

/-- Outcome of one POST call: the response, the collection afterwards,
and the repository operations performed, in order. -/
structure PostOutcome where
  resp : PostResp
  db : List StoredRecord
  ops : List RepoOp
  deriving DecidableEq, Repr

/-- The ALLOWED_MODES constant. -/
def ALLOWED_MODES : List String := ["short", "long", "infinite"]

/-- The in-place overwrite the update branch performs on the fetched
document: `current.correct = correct; current.totalQuestions = ...;`
followed by `wixData.update(COL, current)` receives this value. -/
def applyScore (cur : StoredRecord) (c q t g : Int) : StoredRecord :=
  { cur with correct := c, totalQuestions := q, totalTimeMs := t, avgTimeMs := g }

/-- Embedding of `post_decisionGame` (the saveScore route): validate,
query the existing (initials, mode) document, insert when none exists,
update by identity when the candidate is strictly better, otherwise
write nothing.  `freshId` is the identity the store would assign to an
inserted document. -/
def post_decisionGame (body : ReqBody) (db : List StoredRecord)
    (freshId : Nat) : PostOutcome :=
  match body.initials, body.mode, body.correct, body.totalQuestions,
      body.totalTimeMs, body.avgTimeMs with
  | some i, some m, .num c, .num q, .num t, .num g =>
    if i = "" ∨ m = "" then ⟨.badRequest, db, []⟩
    else
      match wixQuery db i m with
      | [] =>
        let doc : StoredRecord := ⟨freshId, i, m, c, q, t, g, none, none⟩
        ⟨.success, db ++ [doc], [.query i m, .insert doc]⟩
      | current :: _ =>
        let scoreDoc : ScoreRecord := ⟨i, m, c, q, t, g⟩
        if isScoreBetter scoreDoc (toScore current) then
          let updated := applyScore current c q t g
          ⟨.success, wixUpdate db updated, [.query i m, .update updated]⟩
        else
          ⟨.success, db, [.query i m]⟩
  | _, _, _, _, _, _ => ⟨.badRequest, db, []⟩

/-- Embedding of `post_decisionGame_saveScore`: validate mode against
ALLOWED_MODES, then initials, then the numeric fields, then insert a
document with normalized initials, the derived mistakes and a creation
timestamp.  It never queries and never updates. -/
def post_decisionGame_saveScore (body : ReqBody) (db : List StoredRecord)
    (freshId : Nat) (now : Nat) : PostOutcome :=
  match body.mode with
  | none => ⟨.badRequest, db, []⟩
  | some m =>
    if m = "" ∨ ¬ ALLOWED_MODES.contains m then ⟨.badRequest, db, []⟩
    else
      match body.initials with
      | none => ⟨.badRequest, db, []⟩
      | some i =>
        if i = "" then ⟨.badRequest, db, []⟩
        else
          match body.correct, body.totalQuestions, body.totalTimeMs,
              body.avgTimeMs with
          | .num c, .num q, .num t, .num g =>
            let item : StoredRecord :=
              ⟨freshId, jsSlice3 (jsToUpper i), m, c, q, t, g, some (q - c), some now⟩
            ⟨.success, db ++ [item], [.insert item]⟩
          | _, _, _, _ => ⟨.badRequest, db, []⟩

/-- Insertion of one element in front of the first position whose
occupant it may precede.  This is the building block of the stable
sort modelling `Array.prototype.sort` with a user comparator. -/
def insertLe {α : Type} (le : α → α → Bool) (x : α) : List α → List α
  | [] => [x]
  | y :: ys => if le x y then x :: y :: ys else y :: insertLe le x ys

/-- Stable sort by the boolean relation `le`, modelling the JavaScript
sort with comparator `cmp` through `le a b = (cmp a b ≤ 0)`. -/
def sortLe {α : Type} (le : α → α → Bool) : List α → List α
  | [] => []
  | x :: xs => insertLe le x (sortLe le xs)

/-- The numeric comparator of the infinite branch of
`get_decisionGame_leaderboard`: correct descending, then average time
ascending, then total time ascending. -/
def cmpInf (a b : StoredRecord) : Int :=
  if a.correct ≠ b.correct then b.correct - a.correct
  else if a.avgTimeMs ≠ b.avgTimeMs then a.avgTimeMs - b.avgTimeMs
  else a.totalTimeMs - b.totalTimeMs

/-- The mistakes value the short/long branch of
`get_decisionGame_leaderboard` uses:
`a.mistakes ?? (a.totalQuestions - a.correct)` — the persisted field
when present, the derived difference only when absent. -/
def mistakesOf (r : StoredRecord) : Int :=
  match r.mistakes with
  | some k => k
  | none => r.totalQuestions - r.correct

/-- The numeric comparator of the short/long branch of
`get_decisionGame_leaderboard`: mistakes ascending (through
`mistakesOf`), then total time ascending, then average time
ascending. -/
def cmpSL (a b : StoredRecord) : Int :=
  if mistakesOf a ≠ mistakesOf b then mistakesOf a - mistakesOf b
  else if a.totalTimeMs ≠ b.totalTimeMs then a.totalTimeMs - b.totalTimeMs
  else a.avgTimeMs - b.avgTimeMs

/-- One row of the `get_decisionGame_leaderboard` response: rank plus
the public fields, including the mode and the persisted mistakes field
copied through unchanged. -/
structure LeaderboardRow where
  rank : Nat
  initials : String
  mode : String
  correct : Int
  totalQuestions : Int
  totalTimeMs : Int
  avgTimeMs : Int
  mistakes : Option Int
  deriving DecidableEq, Repr

/-- Response of `get_decisionGame_leaderboard`. -/
inductive GetResultA where
  | badRequest
  | okRows (mode : String) (rows : List LeaderboardRow)
  deriving DecidableEq, Repr

/-- The rows of a `GetResultA`, empty on a bad request. -/
def GetResultA.rows : GetResultA → List LeaderboardRow
  | .badRequest => []
  | .okRows _ r => r

/-- The fetched documents of `get_decisionGame_leaderboard` after its
inline sort: the infinite comparator for mode infinite, the short/long
comparator (with its persisted-mistakes fallback) otherwise. -/
def leaderboardSorted (m : String) (db : List StoredRecord) :
    List StoredRecord :=
  if m = "infinite" then
    sortLe (fun a b => decide (cmpInf a b ≤ 0)) (wixQueryMode db m)
  else
    sortLe (fun a b => decide (cmpSL a b ≤ 0)) (wixQueryMode db m)

/-- The row built for position `p.1` of the sorted, truncated document
list of `get_decisionGame_leaderboard`. -/
def toLeaderboardRow (p : Nat × StoredRecord) : LeaderboardRow :=
  ⟨p.1 + 1, p.2.initials, p.2.mode, p.2.correct, p.2.totalQuestions,
    p.2.totalTimeMs, p.2.avgTimeMs, p.2.mistakes⟩

/-- Embedding of `get_decisionGame_leaderboard`: strict mode
validation, mode-filtered fetch, inline sort (infinite or short/long
comparator), top 100 with 1-based ranks. -/
def get_decisionGame_leaderboard (queryMode : Option String)
    (db : List StoredRecord) : GetResultA × List RepoOp :=
  match queryMode with
  | none => (.badRequest, [])
  | some m =>
    if m = "" ∨ ¬ ALLOWED_MODES.contains m then (.badRequest, [])
    else
      (.okRows m (((leaderboardSorted m db).take 100).enum.map toLeaderboardRow),
        [.queryMode m])

/-- The sort comparator of `get_decisionGame`:
`isScoreBetter(a,b) ? -1 : isScoreBetter(b,a) ? 1 : 0`. -/
def cmpScores (a b : ScoreRecord) : Int :=
  if isScoreBetter a b then -1 else if isScoreBetter b a then 1 else 0

/-- One row of the `get_decisionGame` response: rank plus the score
fields (this generation exposes neither mode nor mistakes). -/
structure RankedRow where
  rank : Nat
  initials : String
  correct : Int
  totalQuestions : Int
  totalTimeMs : Int
  avgTimeMs : Int
  deriving DecidableEq, Repr

/-- Response of `get_decisionGame`; this handler has no client-error
path for the mode, so its only form is a row list. -/
inductive GetResultB where
  | okRows (rows : List RankedRow)
  deriving DecidableEq, Repr

/-- The rows of a `GetResultB`. -/
def GetResultB.rows : GetResultB → List RankedRow
  | .okRows r => r

/-- JavaScript `v || dflt` on an optional string: the default replaces
an absent or empty value. -/
def jsOr (v : Option String) (dflt : String) : String :=
  match v with
  | none => dflt
  | some s => if s = "" then dflt else s

/-- The effective mode of `get_decisionGame`:
`(request.query.mode || "short").toLowerCase()`, kept when it is one
of short, long, infinite and replaced by "short" otherwise. -/
def effectiveMode (queryMode : Option String) : String :=
  let q := jsToLower (jsOr queryMode "short")
  if (["short", "long", "infinite"] : List String).contains q then q else "short"

/-- The plain score objects `get_decisionGame` maps the fetched
documents to before sorting. -/
def fetchedScores (queryMode : Option String) (db : List StoredRecord) :
    List ScoreRecord :=
  (wixQueryMode db (effectiveMode queryMode)).map toScore

/-- The fetched scores after the comparator sort of
`get_decisionGame`. -/
def sortedScores (queryMode : Option String) (db : List StoredRecord) :
    List ScoreRecord :=
  sortLe (fun a b => decide (cmpScores a b ≤ 0)) (fetchedScores queryMode db)

/-- The row built for position `p.1` of the sorted, truncated list. -/
def toRankedRow (p : Nat × ScoreRecord) : RankedRow :=
  ⟨p.1 + 1, p.2.initials, p.2.correct, p.2.totalQuestions,
    p.2.totalTimeMs, p.2.avgTimeMs⟩

/-- Embedding of `get_decisionGame`: default the mode, fetch by mode,
sort with the `isScoreBetter` comparator, take the top 100 and attach
1-based ranks. -/
def get_decisionGame (queryMode : Option String) (db : List StoredRecord) :
    GetResultB × List RepoOp :=
  (.okRows (((sortedScores queryMode db).take 100).enum.map toRankedRow),
    [.queryMode (effectiveMode queryMode)])

theorem insertLe_perm {α : Type} (le : α → α → Bool) (x : α) :
    ∀ l : List α, List.Perm (insertLe le x l) (x :: l)
  | [] => List.Perm.refl _
  | y :: ys => by
    rw [insertLe]
    split_ifs with h
    · exact List.Perm.refl _
    · exact ((insertLe_perm le x ys).cons y).trans (List.Perm.swap x y ys)

theorem sortLe_perm {α : Type} (le : α → α → Bool) :
    ∀ l : List α, List.Perm (sortLe le l) l
  | [] => List.Perm.refl _
  | x :: xs => by
    rw [sortLe]
    exact (insertLe_perm le x (sortLe le xs)).trans ((sortLe_perm le xs).cons x)

theorem mem_insertLe {α : Type} (le : α → α → Bool) (x z : α) (l : List α) :
    z ∈ insertLe le x l ↔ z = x ∨ z ∈ l := by
  rw [(insertLe_perm le x l).mem_iff, List.mem_cons]

theorem pairwise_insertLe {α : Type} (le : α → α → Bool) (x : α) :
    ∀ l : List α,
      l.Pairwise (fun a b => le a b = true) →
      (∀ y ∈ l, le x y = true ∨ le y x = true) →
      (∀ y ∈ l, ∀ z ∈ l, le x y = true → le y z = true → le x z = true) →
      (insertLe le x l).Pairwise (fun a b => le a b = true) := by
  intro l
  induction l with
  | nil => intro _ _ _; simp [insertLe]
  | cons y ys ih =>
    intro hl htot htr
    rcases List.pairwise_cons.mp hl with ⟨hy, hys⟩
    rw [insertLe]
    by_cases hxy : le x y = true
    · rw [if_pos hxy]
      refine List.pairwise_cons.mpr ⟨?_, hl⟩
      intro z hz
      rcases List.mem_cons.mp hz with rfl | hz2
      · exact hxy
      · exact htr y (by simp) z (by simp [hz2]) hxy (hy z hz2)
    · rw [if_neg hxy]
      refine List.pairwise_cons.mpr ⟨?_, ?_⟩
      · intro w hw
        rcases (mem_insertLe le x w ys).mp hw with hwx | hw2
        · subst hwx
          rcases htot y (by simp) with h | h
          · exact absurd h hxy
          · exact h
        · exact hy w hw2
      · exact ih hys (fun z hz => htot z (by simp [hz]))
          (fun z hz w hw => htr z (by simp [hz]) w (by simp [hw]))

theorem pairwise_sortLe {α : Type} (le : α → α → Bool) :
    ∀ l : List α,
      (∀ a ∈ l, ∀ b ∈ l, le a b = true ∨ le b a = true) →
      (∀ a ∈ l, ∀ b ∈ l, ∀ c ∈ l,
        le a b = true → le b c = true → le a c = true) →
      (sortLe le l).Pairwise (fun a b => le a b = true) := by
  intro l
  induction l with
  | nil => intro _ _; simp [sortLe]
  | cons x xs ih =>
    intro htot htr
    have hmem : ∀ z ∈ sortLe le xs, z ∈ xs :=
      fun z hz => (sortLe_perm le xs).mem_iff.mp hz
    rw [sortLe]
    refine pairwise_insertLe le x (sortLe le xs) ?_ ?_ ?_
    · exact ih (fun a ha b hb => htot a (by simp [ha]) b (by simp [hb]))
        (fun a ha b hb c hc =>
          htr a (by simp [ha]) b (by simp [hb]) c (by simp [hc]))
    · intro y hy
      exact htot x (by simp) y (by simp [hmem y hy])
    · intro y hy z hz
      exact htr x (by simp) y (by simp [hmem y hy]) z (by simp [hmem z hz])

/-- Negated form of the lexicographic characterization. -/
theorem isScoreBetter_false_iff (a b : ScoreRecord) :
    isScoreBetter a b = false ↔
      ¬ lexLt3 (keysByMode a.mode a) (keysByMode a.mode b) := by
  rw [← Bool.not_eq_true, isScoreBetter_iff]

/-- Asymmetry of the comparator on records sharing a mode. -/
theorem isScoreBetter_asymm (a b : ScoreRecord) (h : a.mode = b.mode) :
    isScoreBetter a b = true → isScoreBetter b a = false := by
  intro hab
  have h1 := (isScoreBetter_iff a b).mp hab
  rw [isScoreBetter_false_iff, ← h]
  exact lexLt3_asymm _ _ h1

/-- On a tie of the ranking keys the comparator is false in both
directions. -/
theorem isScoreBetter_tie (a b : ScoreRecord) (h : a.mode = b.mode)
    (hEq : keysByMode a.mode a = keysByMode a.mode b) :
    isScoreBetter a b = false ∧ isScoreBetter b a = false := by
  constructor
  · rw [isScoreBetter_false_iff, hEq]
    exact lexLt3_irrefl _
  · rw [isScoreBetter_false_iff, ← h, hEq]
    exact lexLt3_irrefl _

/-- A nonpositive sort comparator result means the second record is not
strictly better, for records sharing a mode. -/
theorem cmpScores_nonpos_iff (a b : ScoreRecord) (h : a.mode = b.mode) :
    cmpScores a b ≤ 0 ↔ isScoreBetter b a = false := by
  unfold cmpScores
  by_cases hab : isScoreBetter a b <;> by_cases hba : isScoreBetter b a <;>
    simp [hab, hba]
  · have := isScoreBetter_asymm a b h hab
    rw [this] at hba
    exact absurd hba (by simp)

/-- The sort comparator is total. -/
theorem cmpScores_total (a b : ScoreRecord) :
    cmpScores a b ≤ 0 ∨ cmpScores b a ≤ 0 := by
  unfold cmpScores
  by_cases hab : isScoreBetter a b <;> by_cases hba : isScoreBetter b a <;>
    simp [hab, hba]

/-- The sort comparator is transitive on records sharing a mode. -/
theorem cmpScores_trans (a b c : ScoreRecord)
    (hab : a.mode = b.mode) (hbc : b.mode = c.mode) :
    cmpScores a b ≤ 0 → cmpScores b c ≤ 0 → cmpScores a c ≤ 0 := by
  rw [cmpScores_nonpos_iff a b hab, cmpScores_nonpos_iff b c hbc,
    cmpScores_nonpos_iff a c (hab.trans hbc)]
  rw [isScoreBetter_false_iff, isScoreBetter_false_iff, isScoreBetter_false_iff]
  rw [← hab, ← hbc, ← hab]
  intro h1 h2 hca
  rcases lexLt3_trichotomy (keysByMode a.mode b) (keysByMode a.mode a) with
    hba | hEq | hab2
  · exact h1 hba
  · apply h2; rwa [hEq]
  · exact h2 (lexLt3_trans _ _ _ hca hab2)

/-- Every record fetched by the leaderboard query carries the queried
mode. -/
theorem mem_fetchedScores_mode (qm : Option String) (db : List StoredRecord) :
    ∀ s ∈ fetchedScores qm db, s.mode = effectiveMode qm := by
  intro s hs
  unfold fetchedScores at hs
  rcases List.mem_map.mp hs with ⟨r, hr, rfl⟩
  unfold wixQueryMode at hr
  have hr2 := List.mem_of_mem_take hr
  have hr3 := List.of_mem_filter hr2
  simpa [toScore] using of_decide_eq_true hr3

/-- Evaluation of `post_decisionGame` on a fully populated body that
passes validation. -/
theorem post_valid_eq (i m : String) (c q t g : Int)
    (db : List StoredRecord) (fid : Nat) (hi : i ≠ "") (hm : m ≠ "") :
    post_decisionGame (mkBody i m c q t g) db fid =
      (match wixQuery db i m with
      | [] =>
        ⟨.success, db ++ [⟨fid, i, m, c, q, t, g, none, none⟩],
          [.query i m, .insert ⟨fid, i, m, c, q, t, g, none, none⟩]⟩
      | current :: _ =>
        if isScoreBetter ⟨i, m, c, q, t, g⟩ (toScore current) then
          ⟨.success, wixUpdate db (applyScore current c q t g),
            [.query i m, .update (applyScore current c q t g)]⟩
        else ⟨.success, db, [.query i m]⟩ : PostOutcome) := by
  simp only [post_decisionGame, mkBody]
  rw [if_neg (by simp [hi, hm])]

theorem mem_allowed_ne_empty (m : String) (hm : m ∈ ALLOWED_MODES) :
    m ≠ "" := by
  simp only [ALLOWED_MODES, List.mem_cons, List.not_mem_nil, or_false] at hm
  rcases hm with rfl | rfl | rfl <;> decide

/-- Evaluation of `post_decisionGame` when the lookup finds nothing. -/
theorem post_valid_nil (i m : String) (c q t g : Int)
    (db : List StoredRecord) (fid : Nat) (hi : i ≠ "") (hm : m ≠ "")
    (hq : wixQuery db i m = []) :
    post_decisionGame (mkBody i m c q t g) db fid =
      ⟨.success, db ++ [⟨fid, i, m, c, q, t, g, none, none⟩],
        [.query i m, .insert ⟨fid, i, m, c, q, t, g, none, none⟩]⟩ := by
  rw [post_valid_eq i m c q t g db fid hi hm, hq]

/-- Evaluation of `post_decisionGame` when the lookup finds a current
record. -/
theorem post_valid_found (i m : String) (c q t g : Int)
    (db : List StoredRecord) (fid : Nat) (cur : StoredRecord)
    (rest : List StoredRecord) (hi : i ≠ "") (hm : m ≠ "")
    (hq : wixQuery db i m = cur :: rest) :
    post_decisionGame (mkBody i m c q t g) db fid =
      if isScoreBetter ⟨i, m, c, q, t, g⟩ (toScore cur) then
        ⟨.success, wixUpdate db (applyScore cur c q t g),
          [.query i m, .update (applyScore cur c q t g)]⟩
      else ⟨.success, db, [.query i m]⟩ := by
  rw [post_valid_eq i m c q t g db fid hi hm, hq]

/-- C1 counterexample: a record for the ("ALI", "short") key is
already stored and the candidate is strictly worse per the comparator,
so the claim demands no repository write and an unchanged store; yet
`post_decisionGame_saveScore` performs no lookup and inserts
unconditionally, leaving two records for the key. -/
theorem submit_always_insert_cex :
    wixQuery [⟨0, "ALI", "short", 9, 10, 5000, 500, some 1, some 0⟩]
        "ALI" "short"
      = [⟨0, "ALI", "short", 9, 10, 5000, 500, some 1, some 0⟩] ∧
    isScoreBetter ⟨"ALI", "short", 8, 10, 6000, 600⟩
        (toScore ⟨0, "ALI", "short", 9, 10, 5000, 500, some 1, some 0⟩)
      = false ∧
    post_decisionGame_saveScore (mkBody "ALI" "short" 8 10 6000 600)
        [⟨0, "ALI", "short", 9, 10, 5000, 500, some 1, some 0⟩] 1 7
      = ⟨.success,
         [⟨0, "ALI", "short", 9, 10, 5000, 500, some 1, some 0⟩,
          ⟨1, "ALI", "short", 8, 10, 6000, 600, some 2, some 7⟩],
         [.insert ⟨1, "ALI", "short", 8, 10, 6000, 600, some 2, some 7⟩]⟩ := by
  decide

/-- C1 amended: on a valid payload, `post_decisionGame` implements the
claimed upsert: it inserts exactly once when no (initials, mode)
record exists, updates the found record exactly once when the
candidate is strictly better, and otherwise performs no write and
leaves the store unchanged.  `post_decisionGame_saveScore` performs no
lookup and no comparison: every valid payload causes exactly one
insert, even when a record for the key already exists.  Both handlers
perform at most one repository write per call. -/
theorem submitScore_write_policy (i m : String) (c q t g : Int)
    (db : List StoredRecord) (fid now : Nat)
    (hi : i ≠ "") (hm : m ∈ ALLOWED_MODES) :
    ((post_decisionGame (mkBody i m c q t g) db fid).ops.filter isWriteOp).length ≤ 1 ∧
    (wixQuery db i m = [] →
      (post_decisionGame (mkBody i m c q t g) db fid).ops
          = [.query i m, .insert ⟨fid, i, m, c, q, t, g, none, none⟩] ∧
      (post_decisionGame (mkBody i m c q t g) db fid).db
          = db ++ [⟨fid, i, m, c, q, t, g, none, none⟩]) ∧
    (∀ cur rest, wixQuery db i m = cur :: rest →
      (isScoreBetter ⟨i, m, c, q, t, g⟩ (toScore cur) = true →
        (post_decisionGame (mkBody i m c q t g) db fid).ops
            = [.query i m, .update (applyScore cur c q t g)] ∧
        (post_decisionGame (mkBody i m c q t g) db fid).db
            = wixUpdate db (applyScore cur c q t g)) ∧
      (isScoreBetter ⟨i, m, c, q, t, g⟩ (toScore cur) = false →
        (post_decisionGame (mkBody i m c q t g) db fid).ops = [.query i m] ∧
        (post_decisionGame (mkBody i m c q t g) db fid).db = db)) ∧
    post_decisionGame_saveScore (mkBody i m c q t g) db fid now
        = ⟨.success,
           db ++ [⟨fid, jsSlice3 (jsToUpper i), m, c, q, t, g,
             some (q - c), some now⟩],
           [.insert ⟨fid, jsSlice3 (jsToUpper i), m, c, q, t, g,
             some (q - c), some now⟩]⟩ := by
  have hm2 : m ≠ "" := mem_allowed_ne_empty m hm
  have hsave : post_decisionGame_saveScore (mkBody i m c q t g) db fid now
      = ⟨.success,
         db ++ [⟨fid, jsSlice3 (jsToUpper i), m, c, q, t, g,
           some (q - c), some now⟩],
         [.insert ⟨fid, jsSlice3 (jsToUpper i), m, c, q, t, g,
           some (q - c), some now⟩]⟩ := by
    simp only [post_decisionGame_saveScore, mkBody]
    rw [if_neg (by simp [hm2, hm]), if_neg hi]
  rcases hq : wixQuery db i m with _ | ⟨cur, rest⟩
  · have key := post_valid_nil i m c q t g db fid hi hm2 hq
    refine ⟨?_, ?_, ?_, hsave⟩
    · rw [key]; simp [isWriteOp]
    · intro _
      rw [key]
      exact ⟨rfl, rfl⟩
    · intro cur2 rest2 h
      simp at h
  · have key := post_valid_found i m c q t g db fid cur rest hi hm2 hq
    by_cases hb : isScoreBetter ⟨i, m, c, q, t, g⟩ (toScore cur) = true
    · rw [if_pos hb] at key
      refine ⟨?_, ?_, ?_, hsave⟩
      · rw [key]; simp [isWriteOp]
      · intro h
        simp at h
      · intro cur2 rest2 h
        injection h with h1 h2
        subst h1
        refine ⟨fun _ => ?_, fun hb2 => ?_⟩
        · rw [key]; exact ⟨rfl, rfl⟩
        · rw [hb] at hb2; cases hb2
    · have hb2 : isScoreBetter ⟨i, m, c, q, t, g⟩ (toScore cur) = false := by
        rwa [Bool.not_eq_true] at hb
      rw [if_neg (by simp [hb2])] at key
      refine ⟨?_, ?_, ?_, hsave⟩
      · rw [key]; simp [isWriteOp]
      · intro h
        simp at h
      · intro cur2 rest2 h
        injection h with h1 h2
        subst h1
        refine ⟨fun hb3 => ?_, fun _ => ?_⟩
        · rw [hb2] at hb3; cases hb3
        · rw [key]; exact ⟨rfl, rfl⟩

theorem submitScore_write_policy_witness :
    ("ALI" : String) ≠ "" ∧ ("short" : String) ∈ ALLOWED_MODES ∧
    ((post_decisionGame (mkBody "ALI" "short" 9 10 5000 500) [] 0).ops.filter
        isWriteOp).length ≤ 1 ∧
    (wixQuery [] "ALI" "short" = [] →
      (post_decisionGame (mkBody "ALI" "short" 9 10 5000 500) [] 0).ops
          = [.query "ALI" "short",
             .insert ⟨0, "ALI", "short", 9, 10, 5000, 500, none, none⟩] ∧
      (post_decisionGame (mkBody "ALI" "short" 9 10 5000 500) [] 0).db
          = [] ++ [⟨0, "ALI", "short", 9, 10, 5000, 500, none, none⟩]) ∧
    post_decisionGame_saveScore (mkBody "ALI" "short" 9 10 5000 500) [] 0 7
        = ⟨.success,
           [] ++ [⟨0, jsSlice3 (jsToUpper "ALI"), "short", 9, 10, 5000, 500,
             some 1, some 7⟩],
           [.insert ⟨0, jsSlice3 (jsToUpper "ALI"), "short", 9, 10, 5000, 500,
             some 1, some 7⟩]⟩ :=
  ⟨by decide, by decide,
    (submitScore_write_policy "ALI" "short" 9 10 5000 500 [] 0 7
      (by decide) (by decide)).1,
    (submitScore_write_policy "ALI" "short" 9 10 5000 500 [] 0 7
      (by decide) (by decide)).2.1,
    (submitScore_write_policy "ALI" "short" 9 10 5000 500 [] 0 7
      (by decide) (by decide)).2.2.2⟩

/-- C2: on records sharing a mode the comparator is the strict
lexicographic order over the mode-selected key tuples — for infinite
the tuple (correct descending, average time ascending, total time
ascending), for short and long (mistakes ascending, total time
ascending, average time ascending) — and on a full key tie it is false
in both directions. -/
theorem isScoreBetter_mode_lex (a b : ScoreRecord) (h : a.mode = b.mode) :
    (a.mode = "infinite" →
      (isScoreBetter a b = true ↔ lexLt3 (infiniteKeys a) (infiniteKeys b))) ∧
    ((a.mode = "short" ∨ a.mode = "long") →
      (isScoreBetter a b = true ↔ lexLt3 (shortLongKeys a) (shortLongKeys b))) ∧
    (keysByMode a.mode a = keysByMode a.mode b →
      isScoreBetter a b = false ∧ isScoreBetter b a = false) := by
  refine ⟨?_, ?_, isScoreBetter_tie a b h⟩
  · intro hm
    simp only [isScoreBetter_iff, keysByMode, hm, if_true, reduceIte]
  · intro hm
    have hne : a.mode ≠ "infinite" := by
      rcases hm with h1 | h1 <;> rw [h1] <;> decide
    simp only [isScoreBetter_iff, keysByMode, hne, if_false, reduceIte]

theorem isScoreBetter_mode_lex_witness :
    isScoreBetter ⟨"AAA", "infinite", 20, 0, 16000, 750⟩
        ⟨"BBB", "infinite", 20, 0, 16000, 800⟩ = true ↔
      lexLt3 (infiniteKeys ⟨"AAA", "infinite", 20, 0, 16000, 750⟩)
        (infiniteKeys ⟨"BBB", "infinite", 20, 0, 16000, 800⟩) :=
  (isScoreBetter_mode_lex ⟨"AAA", "infinite", 20, 0, 16000, 750⟩
    ⟨"BBB", "infinite", 20, 0, 16000, 800⟩ rfl).1 rfl

/-- C3: on records sharing a mode the comparator is a strict order:
irreflexive, asymmetric, transitive, and exactly one direction holds
unless the three ranking keys coincide, in which case both directions
are false. -/
theorem isScoreBetter_strict_order (a b c : ScoreRecord)
    (hab : a.mode = b.mode) (hbc : b.mode = c.mode) :
    isScoreBetter a a = false ∧
    (isScoreBetter a b = true → isScoreBetter b a = false) ∧
    (isScoreBetter a b = true → isScoreBetter b c = true →
      isScoreBetter a c = true) ∧
    (keysByMode a.mode a = keysByMode a.mode b →
      isScoreBetter a b = false ∧ isScoreBetter b a = false) ∧
    (keysByMode a.mode a ≠ keysByMode a.mode b →
      ((isScoreBetter a b = true ∧ isScoreBetter b a = false) ∨
        (isScoreBetter a b = false ∧ isScoreBetter b a = true))) := by
  refine ⟨?_, isScoreBetter_asymm a b hab, ?_, isScoreBetter_tie a b hab, ?_⟩
  · rw [isScoreBetter_false_iff]
    exact lexLt3_irrefl _
  · intro h1 h2
    rw [isScoreBetter_iff] at h1 h2 ⊢
    rw [← hab] at h2
    exact lexLt3_trans _ _ _ h1 h2
  · intro hne
    rcases lexLt3_trichotomy (keysByMode a.mode a) (keysByMode a.mode b) with
      h1 | h1 | h1
    · exact Or.inl ⟨(isScoreBetter_iff a b).mpr h1,
        isScoreBetter_asymm a b hab ((isScoreBetter_iff a b).mpr h1)⟩
    · exact absurd h1 hne
    · have hba : isScoreBetter b a = true := by
        rw [isScoreBetter_iff, ← hab]
        exact h1
      exact Or.inr ⟨isScoreBetter_asymm b a hab.symm hba, hba⟩

theorem isScoreBetter_strict_order_witness :
    isScoreBetter ⟨"AAA", "short", 10, 10, 4000, 400⟩
        ⟨"CCC", "short", 8, 10, 4000, 400⟩ = true :=
  (isScoreBetter_strict_order ⟨"AAA", "short", 10, 10, 4000, 400⟩
    ⟨"BBB", "short", 9, 10, 4000, 400⟩ ⟨"CCC", "short", 8, 10, 4000, 400⟩
    rfl rfl).2.2.1 (by decide) (by decide)

/-- C10: the comparator never reads the mode of its second argument —
changing it leaves the result unchanged — and the result always
follows the rule selected by the mode of the first argument. -/
theorem isScoreBetter_ignores_second_mode (a b : ScoreRecord) (m : String) :
    isScoreBetter a { b with mode := m } = isScoreBetter a b ∧
    (isScoreBetter a b = true ↔
      lexLt3 (keysByMode a.mode a) (keysByMode a.mode b)) :=
  ⟨rfl, isScoreBetter_iff a b⟩

theorem cmpInf_total (a b : StoredRecord) :
    cmpInf a b ≤ 0 ∨ cmpInf b a ≤ 0 := by
  unfold cmpInf
  split_ifs <;> omega

theorem cmpInf_trans (a b c : StoredRecord) :
    cmpInf a b ≤ 0 → cmpInf b c ≤ 0 → cmpInf a c ≤ 0 := by
  unfold cmpInf
  split_ifs <;> omega

theorem cmpSL_total (a b : StoredRecord) :
    cmpSL a b ≤ 0 ∨ cmpSL b a ≤ 0 := by
  unfold cmpSL
  split_ifs <;> omega

theorem cmpSL_trans (a b c : StoredRecord) :
    cmpSL a b ≤ 0 → cmpSL b c ≤ 0 → cmpSL a c ≤ 0 := by
  unfold cmpSL
  split_ifs <;> omega

theorem keysByMode_inf (r : ScoreRecord) :
    keysByMode "infinite" r = infiniteKeys r := by
  unfold keysByMode
  rw [if_pos rfl]

theorem keysByMode_not_inf (m : String) (h : m ≠ "infinite")
    (r : ScoreRecord) : keysByMode m r = shortLongKeys r := by
  unfold keysByMode
  rw [if_neg h]

/-- The infinite-branch numeric comparator agrees with the negated
lexicographic order on the infinite key tuples. -/
theorem cmpInf_nonpos_iff (x y : StoredRecord) :
    cmpInf x y ≤ 0 ↔
      ¬ lexLt3 (infiniteKeys (toScore y)) (infiniteKeys (toScore x)) := by
  simp only [cmpInf, infiniteKeys, toScore, lexLt3]
  split_ifs <;> omega

/-- A record whose persisted mistakes field is absent or agrees with
the derived difference has `mistakesOf` equal to the derived value. -/
theorem mistakesOf_fresh (r : StoredRecord)
    (h : r.mistakes = none ∨ r.mistakes = some (r.totalQuestions - r.correct)) :
    mistakesOf r = r.totalQuestions - r.correct := by
  rcases h with h | h <;> simp [mistakesOf, h]

/-- On records with fresh mistakes values the short/long numeric
comparator agrees with the negated lexicographic order on the
short/long key tuples. -/
theorem cmpSL_nonpos_iff_fresh (x y : StoredRecord)
    (hx : mistakesOf x = x.totalQuestions - x.correct)
    (hy : mistakesOf y = y.totalQuestions - y.correct) :
    cmpSL x y ≤ 0 ↔
      ¬ lexLt3 (shortLongKeys (toScore y)) (shortLongKeys (toScore x)) := by
  simp only [cmpSL, shortLongKeys, toScore, lexLt3, hx, hy]
  split_ifs <;> omega

/-- Every record fetched by the mode-filtered query carries the
queried mode. -/
theorem mem_wixQueryMode_mode (db : List StoredRecord) (m : String) :
    ∀ r ∈ wixQueryMode db m, r.mode = m := by
  intro r hr
  have hr2 := List.mem_of_mem_take hr
  have hr3 := List.of_mem_filter hr2
  exact of_decide_eq_true hr3

theorem mem_leaderboardSorted (m : String) (db : List StoredRecord) :
    ∀ r ∈ leaderboardSorted m db, r ∈ wixQueryMode db m := by
  intro r hr
  unfold leaderboardSorted at hr
  split_ifs at hr <;> exact (sortLe_perm _ _).mem_iff.mp hr

theorem leaderboardSorted_length (m : String) (db : List StoredRecord) :
    (leaderboardSorted m db).length = (wixQueryMode db m).length := by
  unfold leaderboardSorted
  split_ifs <;> exact (sortLe_perm _ _).length_eq

theorem effectiveMode_allowed (m : String) (hm : m ∈ ALLOWED_MODES) :
    effectiveMode (some m) = m := by
  simp only [ALLOWED_MODES, List.mem_cons, List.not_mem_nil, or_false] at hm
  rcases hm with rfl | rfl | rfl <;> decide

/-- Evaluation of `get_decisionGame_leaderboard` on a valid mode. -/
theorem leaderboard_valid_eq (m : String) (db : List StoredRecord)
    (hm : m ∈ ALLOWED_MODES) :
    get_decisionGame_leaderboard (some m) db
      = (.okRows m
          (((leaderboardSorted m db).take 100).enum.map toLeaderboardRow),
         [.queryMode m]) := by
  have hm2 : m ≠ "" := mem_allowed_ne_empty m hm
  simp only [get_decisionGame_leaderboard]
  rw [if_neg (by simp [hm2, hm])]

/-- C4 counterexample: a valid short-mode call of
`get_decisionGame_leaderboard` over two same-mode fetched records
returns the record the mode comparator ranks strictly better in second
place: the inline sort used the stale persisted mistakes value 5
instead of the derived 10 - 10 = 0, so the returned sequence is not
sorted best-first per the mode comparator. -/
theorem leaderboard_unsorted_cex :
    (get_decisionGame_leaderboard (some "short")
        [⟨0, "AAA", "short", 10, 10, 5000, 500, some 5, none⟩,
         ⟨1, "BBB", "short", 9, 10, 5000, 500, none, none⟩]).1.rows.map
        (fun r => r.initials) = ["BBB", "AAA"] ∧
    isScoreBetter (toScore ⟨0, "AAA", "short", 10, 10, 5000, 500, some 5, none⟩)
        (toScore ⟨1, "BBB", "short", 9, 10, 5000, 500, none, none⟩)
      = true := by
  decide

/-- C4 amended: over the N fetched same-mode records of a valid
leaderboard call, both handlers return rows of length min 100 N
carrying the dense ranks 1..min 100 N in order.  The sequence of
`get_decisionGame` always follows the comparator sort, in which no
later entry is strictly better than an earlier one; the sequence of
`get_decisionGame_leaderboard` follows it for the infinite mode
always, and for short and long whenever every fetched record carries
no persisted mistakes value or one that agrees with the derived
difference. -/
theorem leaderboard_ranked (m : String) (db : List StoredRecord)
    (hm : m ∈ ALLOWED_MODES) :
    (get_decisionGame (some m) db).2 = [.queryMode m] ∧
    (get_decisionGame (some m) db).1.rows.length
        = min 100 (fetchedScores (some m) db).length ∧
    (get_decisionGame (some m) db).1.rows.map (fun r => r.rank)
        = (List.range ((get_decisionGame (some m) db).1.rows.length)).map
            (fun k => k + 1) ∧
    (sortedScores (some m) db).Pairwise (fun x y => isScoreBetter y x = false) ∧
    (get_decisionGame (some m) db).1.rows
        = ((sortedScores (some m) db).take 100).enum.map toRankedRow ∧
    (get_decisionGame_leaderboard (some m) db).1.rows
        = ((leaderboardSorted m db).take 100).enum.map toLeaderboardRow ∧
    (get_decisionGame_leaderboard (some m) db).1.rows.length
        = min 100 (wixQueryMode db m).length ∧
    (get_decisionGame_leaderboard (some m) db).1.rows.map (fun r => r.rank)
        = (List.range
            ((get_decisionGame_leaderboard (some m) db).1.rows.length)).map
            (fun k => k + 1) ∧
    (m = "infinite" →
      (leaderboardSorted m db).Pairwise
        (fun x y => isScoreBetter (toScore y) (toScore x) = false)) ∧
    ((m = "short" ∨ m = "long") →
      (∀ r ∈ wixQueryMode db m,
        r.mistakes = none ∨ r.mistakes = some (r.totalQuestions - r.correct)) →
      (leaderboardSorted m db).Pairwise
        (fun x y => isScoreBetter (toScore y) (toScore x) = false)) := by
  have hlen : (sortedScores (some m) db).length
      = (fetchedScores (some m) db).length :=
    (sortLe_perm (fun a b => decide (cmpScores a b ≤ 0))
      (fetchedScores (some m) db)).length_eq
  refine ⟨?_, ?_, ?_, ?_, rfl, ?_, ?_, ?_, ?_, ?_⟩
  · simp [get_decisionGame, effectiveMode_allowed m hm]
  · show (((sortedScores (some m) db).take 100).enum.map toRankedRow).length = _
    rw [List.length_map, List.enum_length, List.length_take, hlen]
  · show (((sortedScores (some m) db).take 100).enum.map toRankedRow).map
        (fun r => r.rank) = _
    rw [List.map_map]
    have hcomp : ((fun r : RankedRow => r.rank) ∘ toRankedRow)
        = (fun k => k + 1) ∘ (Prod.fst : Nat × ScoreRecord → Nat) := rfl
    rw [hcomp, ← List.map_map, List.enum_map_fst]
    have hlen2 : ((get_decisionGame (some m) db).1.rows).length
        = ((sortedScores (some m) db).take 100).length := by
      show ((((sortedScores (some m) db).take 100).enum.map toRankedRow)).length = _
      rw [List.length_map, List.enum_length]
    rw [hlen2]
  · have hmode : ∀ s ∈ fetchedScores (some m) db, s.mode = effectiveMode (some m) :=
      mem_fetchedScores_mode (some m) db
    have htot : ∀ x ∈ fetchedScores (some m) db, ∀ y ∈ fetchedScores (some m) db,
        decide (cmpScores x y ≤ 0) = true ∨ decide (cmpScores y x ≤ 0) = true := by
      intro x _ y _
      rcases cmpScores_total x y with h | h
      · exact Or.inl (decide_eq_true h)
      · exact Or.inr (decide_eq_true h)
    have htr : ∀ x ∈ fetchedScores (some m) db, ∀ y ∈ fetchedScores (some m) db,
        ∀ z ∈ fetchedScores (some m) db,
        decide (cmpScores x y ≤ 0) = true → decide (cmpScores y z ≤ 0) = true →
        decide (cmpScores x z ≤ 0) = true := by
      intro x hx y hy z hz h1 h2
      have e1 : x.mode = y.mode := (hmode x hx).trans (hmode y hy).symm
      have e2 : y.mode = z.mode := (hmode y hy).trans (hmode z hz).symm
      exact decide_eq_true (cmpScores_trans x y z e1 e2
        (of_decide_eq_true h1) (of_decide_eq_true h2))
    have hp := pairwise_sortLe (fun a b => decide (cmpScores a b ≤ 0))
      (fetchedScores (some m) db) htot htr
    refine List.Pairwise.imp_of_mem ?_ hp
    intro x y hx hy hxy
    have hx2 := (sortLe_perm (fun a b => decide (cmpScores a b ≤ 0))
      (fetchedScores (some m) db)).mem_iff.mp hx
    have hy2 := (sortLe_perm (fun a b => decide (cmpScores a b ≤ 0))
      (fetchedScores (some m) db)).mem_iff.mp hy
    have e : x.mode = y.mode := (hmode x hx2).trans (hmode y hy2).symm
    exact (cmpScores_nonpos_iff x y e).mp (of_decide_eq_true hxy)
  · rw [leaderboard_valid_eq m db hm]
    rfl
  · simp only [leaderboard_valid_eq m db hm, GetResultA.rows]
    rw [List.length_map, List.enum_length, List.length_take,
      leaderboardSorted_length]
  · simp only [leaderboard_valid_eq m db hm, GetResultA.rows]
    rw [List.length_map, List.enum_length, List.map_map]
    have hcomp2 : ((fun r : LeaderboardRow => r.rank) ∘ toLeaderboardRow)
        = (fun k => k + 1) ∘ (Prod.fst : Nat × StoredRecord → Nat) := rfl
    rw [hcomp2, ← List.map_map, List.enum_map_fst]
  · intro hinf
    subst hinf
    have hsid : leaderboardSorted "infinite" db
        = sortLe (fun a b => decide (cmpInf a b ≤ 0))
            (wixQueryMode db "infinite") := by
      unfold leaderboardSorted
      rw [if_pos rfl]
    rw [hsid]
    have htotA : ∀ a ∈ wixQueryMode db "infinite",
        ∀ b ∈ wixQueryMode db "infinite",
        decide (cmpInf a b ≤ 0) = true ∨ decide (cmpInf b a ≤ 0) = true := by
      intro a _ b _
      rcases cmpInf_total a b with h | h
      · exact Or.inl (decide_eq_true h)
      · exact Or.inr (decide_eq_true h)
    have htrA : ∀ a ∈ wixQueryMode db "infinite",
        ∀ b ∈ wixQueryMode db "infinite", ∀ c ∈ wixQueryMode db "infinite",
        decide (cmpInf a b ≤ 0) = true → decide (cmpInf b c ≤ 0) = true →
        decide (cmpInf a c ≤ 0) = true := by
      intro a _ b _ c _ h1 h2
      exact decide_eq_true (cmpInf_trans a b c
        (of_decide_eq_true h1) (of_decide_eq_true h2))
    have hpA := pairwise_sortLe (fun a b => decide (cmpInf a b ≤ 0))
      (wixQueryMode db "infinite") htotA htrA
    refine List.Pairwise.imp_of_mem ?_ hpA
    intro x y hx hy hxy
    have hy2 := (sortLe_perm (fun a b => decide (cmpInf a b ≤ 0))
      (wixQueryMode db "infinite")).mem_iff.mp hy
    have hymode : (toScore y).mode = "infinite" :=
      mem_wixQueryMode_mode db "infinite" y hy2
    rw [isScoreBetter_false_iff, hymode]
    simp only [keysByMode_inf]
    exact (cmpInf_nonpos_iff x y).mp (of_decide_eq_true hxy)
  · intro hsl hfresh
    have hne : m ≠ "infinite" := by
      rcases hsl with rfl | rfl <;> decide
    have hsid : leaderboardSorted m db
        = sortLe (fun a b => decide (cmpSL a b ≤ 0)) (wixQueryMode db m) := by
      unfold leaderboardSorted
      rw [if_neg hne]
    rw [hsid]
    have htotA : ∀ a ∈ wixQueryMode db m, ∀ b ∈ wixQueryMode db m,
        decide (cmpSL a b ≤ 0) = true ∨ decide (cmpSL b a ≤ 0) = true := by
      intro a _ b _
      rcases cmpSL_total a b with h | h
      · exact Or.inl (decide_eq_true h)
      · exact Or.inr (decide_eq_true h)
    have htrA : ∀ a ∈ wixQueryMode db m, ∀ b ∈ wixQueryMode db m,
        ∀ c ∈ wixQueryMode db m,
        decide (cmpSL a b ≤ 0) = true → decide (cmpSL b c ≤ 0) = true →
        decide (cmpSL a c ≤ 0) = true := by
      intro a _ b _ c _ h1 h2
      exact decide_eq_true (cmpSL_trans a b c
        (of_decide_eq_true h1) (of_decide_eq_true h2))
    have hpA := pairwise_sortLe (fun a b => decide (cmpSL a b ≤ 0))
      (wixQueryMode db m) htotA htrA
    refine List.Pairwise.imp_of_mem ?_ hpA
    intro x y hx hy hxy
    have hx2 := (sortLe_perm (fun a b => decide (cmpSL a b ≤ 0))
      (wixQueryMode db m)).mem_iff.mp hx
    have hy2 := (sortLe_perm (fun a b => decide (cmpSL a b ≤ 0))
      (wixQueryMode db m)).mem_iff.mp hy
    have hymode : (toScore y).mode = m := mem_wixQueryMode_mode db m y hy2
    rw [isScoreBetter_false_iff, hymode]
    simp only [keysByMode_not_inf m hne]
    exact (cmpSL_nonpos_iff_fresh x y
      (mistakesOf_fresh x (hfresh x hx2))
      (mistakesOf_fresh y (hfresh y hy2))).mp (of_decide_eq_true hxy)

theorem leaderboard_ranked_witness :
    ("short" : String) ∈ ALLOWED_MODES ∧
    (get_decisionGame (some "short")
        [⟨0, "AAA", "short", 8, 10, 5000, 500, none, none⟩,
         ⟨1, "BBB", "short", 9, 10, 6000, 600, none, none⟩]).1.rows.length
      = min 100 (fetchedScores (some "short")
        [⟨0, "AAA", "short", 8, 10, 5000, 500, none, none⟩,
         ⟨1, "BBB", "short", 9, 10, 6000, 600, none, none⟩]).length ∧
    (get_decisionGame_leaderboard (some "short")
        [⟨0, "AAA", "short", 8, 10, 5000, 500, none, none⟩,
         ⟨1, "BBB", "short", 9, 10, 6000, 600, none, none⟩]).1.rows.length
      = min 100 (wixQueryMode
        [⟨0, "AAA", "short", 8, 10, 5000, 500, none, none⟩,
         ⟨1, "BBB", "short", 9, 10, 6000, 600, none, none⟩] "short").length ∧
    (leaderboardSorted "short"
        [⟨0, "AAA", "short", 8, 10, 5000, 500, none, none⟩,
         ⟨1, "BBB", "short", 9, 10, 6000, 600, none, none⟩]).Pairwise
      (fun x y => isScoreBetter (toScore y) (toScore x) = false) :=
  ⟨by decide,
    (leaderboard_ranked "short"
      [⟨0, "AAA", "short", 8, 10, 5000, 500, none, none⟩,
       ⟨1, "BBB", "short", 9, 10, 6000, 600, none, none⟩] (by decide)).2.1,
    (leaderboard_ranked "short"
      [⟨0, "AAA", "short", 8, 10, 5000, 500, none, none⟩,
       ⟨1, "BBB", "short", 9, 10, 6000, 600, none, none⟩]
      (by decide)).2.2.2.2.2.2.1,
    (leaderboard_ranked "short"
      [⟨0, "AAA", "short", 8, 10, 5000, 500, none, none⟩,
       ⟨1, "BBB", "short", 9, 10, 6000, 600, none, none⟩]
      (by decide)).2.2.2.2.2.2.2.2.2 (Or.inl rfl) (by decide)⟩

/-- C5 counterexample: a payload whose mode "banana" is outside the
closed enumeration passes the validation of `post_decisionGame`, which
then queries the repository and performs an insert instead of
returning a client error with zero repository operations. -/
theorem submit_invalid_mode_write_cex :
    (post_decisionGame (mkBody "ALI" "banana" 9 10 5000 500) [] 0).resp
        = PostResp.success ∧
    (post_decisionGame (mkBody "ALI" "banana" 9 10 5000 500) [] 0).ops
        = [.query "ALI" "banana",
           .insert ⟨0, "ALI", "banana", 9, 10, 5000, 500, none, none⟩] ∧
    ((post_decisionGame (mkBody "ALI" "banana" 9 10 5000 500) [] 0).ops.filter
        isWriteOp).length = 1 := by
  decide

/-- C5 amended: a missing or empty initials value or a non-numeric
score field makes both POST handlers return a client error with zero
repository operations and an unchanged store; a missing or empty mode
does the same; a mode outside the enumeration is rejected the same way
by `post_decisionGame_saveScore`, while `post_decisionGame` accepts
any non-empty mode string and proceeds to a success response. -/
theorem submit_validation_policy (b : ReqBody) (i m : String)
    (c q t g : Int) (db : List StoredRecord) (fid now : Nat) :
    ((b.initials = none ∨ b.initials = some "" ∨
        b.correct.isNumber = false ∨ b.totalQuestions.isNumber = false ∨
        b.totalTimeMs.isNumber = false ∨ b.avgTimeMs.isNumber = false) →
      post_decisionGame b db fid = ⟨.badRequest, db, []⟩ ∧
      post_decisionGame_saveScore b db fid now = ⟨.badRequest, db, []⟩) ∧
    ((b.mode = none ∨ b.mode = some "") →
      post_decisionGame b db fid = ⟨.badRequest, db, []⟩) ∧
    ((b.mode = none ∨ (∃ s, b.mode = some s ∧ s ∉ ALLOWED_MODES)) →
      post_decisionGame_saveScore b db fid now = ⟨.badRequest, db, []⟩) ∧
    (i ≠ "" → m ≠ "" →
      (post_decisionGame (mkBody i m c q t g) db fid).resp = .success) := by
  obtain ⟨bi, bm, bc, bq, bt, bg⟩ := b
  refine ⟨?_, ?_, ?_, ?_⟩
  · intro h
    cases bi <;> cases bm <;> cases bc <;> cases bq <;> cases bt <;> cases bg <;>
      simp_all [post_decisionGame, post_decisionGame_saveScore,
        JsField.isNumber]
  · intro h
    cases bi <;> cases bm <;> cases bc <;> cases bq <;> cases bt <;> cases bg <;>
      simp_all [post_decisionGame, JsField.isNumber]
  · intro h
    rcases h with h | ⟨s, hs, hmem⟩
    · cases bm <;> simp_all [post_decisionGame_saveScore]
    · subst hs
      simp only [post_decisionGame_saveScore]
      rw [if_pos (Or.inr (by simpa using hmem))]
  · intro hi hm
    rcases hq : wixQuery db i m with _ | ⟨cur, rest⟩
    · rw [post_valid_nil i m c q t g db fid hi hm hq]
    · rw [post_valid_found i m c q t g db fid cur rest hi hm hq]
      split_ifs <;> rfl

theorem submit_validation_policy_witness :
    ((⟨some "ALI", some "short", .str "nine", .num 10, .num 5000,
        .num 500⟩ : ReqBody).correct.isNumber = false) ∧
    post_decisionGame
        ⟨some "ALI", some "short", .str "nine", .num 10, .num 5000, .num 500⟩
        [] 0 = ⟨.badRequest, [], []⟩ ∧
    post_decisionGame_saveScore
        ⟨some "ALI", some "short", .str "nine", .num 10, .num 5000, .num 500⟩
        [] 0 7 = ⟨.badRequest, [], []⟩ ∧
    post_decisionGame_saveScore (mkBody "ALI" "banana" 9 10 5000 500) [] 0 7
        = ⟨.badRequest, [], []⟩ ∧
    (post_decisionGame (mkBody "ALI" "banana" 9 10 5000 500) [] 0).resp
        = .success :=
  ⟨by decide,
    ((submit_validation_policy
        ⟨some "ALI", some "short", .str "nine", .num 10, .num 5000, .num 500⟩
        "ALI" "short" 9 10 5000 500 [] 0 7).1
      (by decide)).1,
    ((submit_validation_policy
        ⟨some "ALI", some "short", .str "nine", .num 10, .num 5000, .num 500⟩
        "ALI" "short" 9 10 5000 500 [] 0 7).1
      (by decide)).2,
    (submit_validation_policy (mkBody "ALI" "banana" 9 10 5000 500)
        "ALI" "banana" 9 10 5000 500 [] 0 7).2.2.1
      (Or.inr ⟨"banana", rfl, by decide⟩),
    (submit_validation_policy (mkBody "ALI" "banana" 9 10 5000 500)
        "ALI" "banana" 9 10 5000 500 [] 0 7).2.2.2
      (by decide) (by decide)⟩

/-- C6 counterexample: a leaderboard call of `get_decisionGame` with
the unknown mode "banana" does not return a client error: it falls
back to mode "short", performs the mode fetch and returns ranked
rows. -/
theorem leaderboard_default_cex :
    get_decisionGame (some "banana")
        [⟨0, "AAA", "short", 9, 10, 5000, 500, none, none⟩]
      = (.okRows [⟨1, "AAA", 9, 10, 5000, 500⟩], [.queryMode "short"]) := by
  decide

/-- C6 amended: `get_decisionGame_leaderboard` rejects a missing or
invalid mode with a client error and no repository operation, while
`get_decisionGame` always proceeds: it fetches exactly once, under an
effective mode drawn from the closed enumeration (falling back to
"short"). -/
theorem leaderboard_mode_policy (qm : Option String) (db : List StoredRecord) :
    ((qm = none ∨ (∃ s, qm = some s ∧ (s = "" ∨ s ∉ ALLOWED_MODES))) →
      get_decisionGame_leaderboard qm db = (.badRequest, [])) ∧
    (get_decisionGame qm db).2 = [.queryMode (effectiveMode qm)] ∧
    effectiveMode qm ∈ ALLOWED_MODES := by
  refine ⟨?_, rfl, ?_⟩
  · intro h
    rcases h with rfl | ⟨s, rfl, hs⟩
    · rfl
    · simp only [get_decisionGame_leaderboard]
      rcases hs with rfl | hs
      · rw [if_pos (Or.inl rfl)]
      · rw [if_pos (Or.inr (by simpa using hs))]
  · by_cases h : (["short", "long", "infinite"] : List String).contains
        (jsToLower (jsOr qm "short")) = true
    · have he : effectiveMode qm = jsToLower (jsOr qm "short") := by
        simp only [effectiveMode]
        rw [if_pos h]
      rw [he]
      simpa [ALLOWED_MODES] using h
    · have he : effectiveMode qm = "short" := by
        simp only [effectiveMode]
        rw [if_neg h]
      rw [he]
      simp [ALLOWED_MODES]

theorem leaderboard_mode_policy_witness :
    get_decisionGame_leaderboard (some "banana") [] = (.badRequest, []) ∧
    (get_decisionGame (some "banana") []).2
        = [.queryMode (effectiveMode (some "banana"))] :=
  ⟨(leaderboard_mode_policy (some "banana") []).1
      (Or.inr ⟨"banana", rfl, Or.inr (by decide)⟩),
    (leaderboard_mode_policy (some "banana") []).2.1⟩

/-- C7 counterexample: with a stored record under initials "ALI", a
submission with initials "ali" is looked up and stored under the raw
string "ali": `post_decisionGame` neither uppercases nor truncates, so
the case variant addresses a second, distinct record instead of the
stored one. -/
theorem submit_raw_initials_cex :
    post_decisionGame (mkBody "ali" "short" 10 10 4000 400)
        [⟨0, "ALI", "short", 9, 10, 5000, 500, none, none⟩] 1
      = ⟨.success,
         [⟨0, "ALI", "short", 9, 10, 5000, 500, none, none⟩,
          ⟨1, "ali", "short", 10, 10, 4000, 400, none, none⟩],
         [.query "ali" "short",
          .insert ⟨1, "ali", "short", 10, 10, 4000, 400, none, none⟩]⟩ := by
  decide

/-- C7 amended: `post_decisionGame_saveScore` stores the uppercased,
3-character-truncated initials but performs no lookup at all, while
`post_decisionGame` uses the raw initials unchanged both as the lookup
key and as the stored value. -/
theorem submit_initials_handling (i m : String) (c q t g : Int)
    (db : List StoredRecord) (fid now : Nat)
    (hi : i ≠ "") (hm : m ∈ ALLOWED_MODES) :
    post_decisionGame_saveScore (mkBody i m c q t g) db fid now
        = ⟨.success,
           db ++ [⟨fid, jsSlice3 (jsToUpper i), m, c, q, t, g,
             some (q - c), some now⟩],
           [.insert ⟨fid, jsSlice3 (jsToUpper i), m, c, q, t, g,
             some (q - c), some now⟩]⟩ ∧
    (post_decisionGame (mkBody i m c q t g) db fid).ops.head?
        = some (.query i m) ∧
    (wixQuery db i m = [] →
      (post_decisionGame (mkBody i m c q t g) db fid).db
          = db ++ [⟨fid, i, m, c, q, t, g, none, none⟩]) := by
  have hm2 : m ≠ "" := mem_allowed_ne_empty m hm
  have hcontains : ALLOWED_MODES.contains m = true := by simpa using hm
  refine ⟨?_, ?_, ?_⟩
  · simp only [post_decisionGame_saveScore, mkBody]
    rw [if_neg (by simp [hm2, hm]), if_neg hi]
  · rcases hq : wixQuery db i m with _ | ⟨cur, rest⟩
    · rw [post_valid_nil i m c q t g db fid hi hm2 hq]
      rfl
    · rw [post_valid_found i m c q t g db fid cur rest hi hm2 hq]
      split_ifs <;> rfl
  · intro hq
    rw [post_valid_nil i m c q t g db fid hi hm2 hq]

theorem submit_initials_handling_witness :
    post_decisionGame_saveScore (mkBody "ali" "short" 9 10 5000 500) [] 0 7
        = ⟨.success,
           [⟨0, jsSlice3 (jsToUpper "ali"), "short", 9, 10, 5000, 500,
             some 1, some 7⟩],
           [.insert ⟨0, jsSlice3 (jsToUpper "ali"), "short", 9, 10, 5000, 500,
             some 1, some 7⟩]⟩ ∧
    (post_decisionGame (mkBody "ali" "short" 9 10 5000 500) [] 0).ops.head?
        = some (.query "ali" "short") :=
  ⟨(submit_initials_handling "ali" "short" 9 10 5000 500 [] 0 7
      (by decide) (by decide)).1,
    (submit_initials_handling "ali" "short" 9 10 5000 500 [] 0 7
      (by decide) (by decide)).2.1⟩

/-- C8 counterexample: in the short-mode leaderboard sort of
`get_decisionGame_leaderboard`, a record whose persisted mistakes
field (5) disagrees with its derived value (10 - 10 = 0) is ranked by
the persisted value: the comparator on derived mistakes says AAA is
strictly better than BBB, yet the response ranks BBB first. -/
theorem leaderboard_stale_mistakes_cex :
    (get_decisionGame_leaderboard (some "short")
        [⟨0, "AAA", "short", 10, 10, 5000, 500, some 5, none⟩,
         ⟨1, "BBB", "short", 9, 10, 5000, 500, some 1, none⟩]).1.rows.map
        (fun r => r.initials) = ["BBB", "AAA"] ∧
    isScoreBetter (toScore ⟨0, "AAA", "short", 10, 10, 5000, 500, some 5, none⟩)
        (toScore ⟨1, "BBB", "short", 9, 10, 5000, 500, some 1, none⟩) = true := by
  decide

/-- C8 amended: the comparison path of `isScoreBetter` always derives
mistakes from totalQuestions minus correct and never reads a persisted
mistakes field, but the short/long sort of
`get_decisionGame_leaderboard` ranks by `mistakesOf`, which prefers a
present persisted mistakes value and recomputes only when it is
absent. -/
theorem mistakes_derivation (a b : StoredRecord) (k : Int)
    (x y : Option Int) :
    mistakesOf { a with mistakes := some k } = k ∧
    mistakesOf { a with mistakes := none } = a.totalQuestions - a.correct ∧
    isScoreBetter (toScore { a with mistakes := x })
        (toScore { b with mistakes := y })
      = isScoreBetter (toScore a) (toScore b) ∧
    cmpSL { a with mistakes := some k } { b with mistakes := some k }
      = (if a.totalTimeMs ≠ b.totalTimeMs then a.totalTimeMs - b.totalTimeMs
         else a.avgTimeMs - b.avgTimeMs) := by
  refine ⟨rfl, rfl, rfl, ?_⟩
  simp [cmpSL, mistakesOf]

/-- C9 counterexample: a strictly better submission makes
`post_decisionGame` overwrite only correct, totalQuestions,
totalTimeMs and avgTimeMs on the stored record: the persisted mistakes
field keeps its stale value 2 instead of the derived 10 - 10 = 0, and
no timestamp is written. -/
theorem submit_update_stale_cex :
    post_decisionGame (mkBody "AAA" "short" 10 10 4000 400)
        [⟨0, "AAA", "short", 8, 10, 5000, 500, some 2, some 99⟩] 1
      = ⟨.success,
         [⟨0, "AAA", "short", 10, 10, 4000, 400, some 2, some 99⟩],
         [.query "AAA" "short",
          .update ⟨0, "AAA", "short", 10, 10, 4000, 400, some 2, some 99⟩]⟩ ∧
    (some 2 : Option Int) ≠ some ((10 : Int) - 10) := by
  decide

/-- C9 amended: when the candidate is strictly better, the update
writes back the fetched record with exactly correct, totalQuestions,
totalTimeMs and avgTimeMs replaced; its identity, initials, mode,
persisted mistakes and creation timestamp are unchanged, and neither a
recomputed mistakes value nor an update timestamp is written. -/
theorem submit_update_frame (i m : String) (c q t g : Int)
    (db : List StoredRecord) (fid : Nat) (cur : StoredRecord)
    (rest : List StoredRecord) (hi : i ≠ "") (hm : m ∈ ALLOWED_MODES)
    (hq : wixQuery db i m = cur :: rest)
    (hb : isScoreBetter ⟨i, m, c, q, t, g⟩ (toScore cur) = true) :
    (post_decisionGame (mkBody i m c q t g) db fid).db
        = wixUpdate db (applyScore cur c q t g) ∧
    (post_decisionGame (mkBody i m c q t g) db fid).ops
        = [.query i m, .update (applyScore cur c q t g)] ∧
    (applyScore cur c q t g).sysId = cur.sysId ∧
    (applyScore cur c q t g).initials = cur.initials ∧
    (applyScore cur c q t g).mode = cur.mode ∧
    (applyScore cur c q t g).mistakes = cur.mistakes ∧
    (applyScore cur c q t g).createdAt = cur.createdAt ∧
    (applyScore cur c q t g).correct = c ∧
    (applyScore cur c q t g).totalQuestions = q ∧
    (applyScore cur c q t g).totalTimeMs = t ∧
    (applyScore cur c q t g).avgTimeMs = g := by
  have hm2 : m ≠ "" := mem_allowed_ne_empty m hm
  have key := post_valid_found i m c q t g db fid cur rest hi hm2 hq
  rw [if_pos hb] at key
  rw [key]
  exact ⟨rfl, rfl, rfl, rfl, rfl, rfl, rfl, rfl, rfl, rfl, rfl⟩

theorem submit_update_frame_witness :
    (post_decisionGame (mkBody "AAA" "short" 10 10 4000 400)
        [⟨0, "AAA", "short", 8, 10, 5000, 500, some 2, some 99⟩] 1).db
      = wixUpdate [⟨0, "AAA", "short", 8, 10, 5000, 500, some 2, some 99⟩]
          (applyScore ⟨0, "AAA", "short", 8, 10, 5000, 500, some 2, some 99⟩
            10 10 4000 400) ∧
    (applyScore ⟨0, "AAA", "short", 8, 10, 5000, 500, some 2, some 99⟩
        10 10 4000 400).mistakes
      = (⟨0, "AAA", "short", 8, 10, 5000, 500, some 2, some 99⟩ :
          StoredRecord).mistakes :=
  ⟨(submit_update_frame "AAA" "short" 10 10 4000 400
      [⟨0, "AAA", "short", 8, 10, 5000, 500, some 2, some 99⟩] 1
      ⟨0, "AAA", "short", 8, 10, 5000, 500, some 2, some 99⟩ []
      (by decide) (by decide) (by decide) (by decide)).1,
    (submit_update_frame "AAA" "short" 10 10 4000 400
      [⟨0, "AAA", "short", 8, 10, 5000, 500, some 2, some 99⟩] 1
      ⟨0, "AAA", "short", 8, 10, 5000, 500, some 2, some 99⟩ []
      (by decide) (by decide) (by decide) (by decide)).2.2.2.2.2.1⟩

end DecisionGame
